import Mathlib

/-!
Verification of the Zenith in-memory storage server (`server.js`).

The server keeps three global JavaScript objects:
  `users`     : email → user record,
  `buckets`   : bucketId → bucket record,
  `databases` : bucketId → (path → document record).
JavaScript objects with string keys preserve insertion order, so each map is
embedded as an association list with JS object semantics: assignment to an
existing key replaces the value in place, assignment to a fresh key appends,
`delete` removes the entry, `Object.keys(...).length` is the list length
(keys of a JS object are unique by construction).

Every Express handler is embedded as a pure function
`ServerState → ... → ServerState × Except ApiError α`: the returned state is
the post-state of the global maps, the `Except` value is the HTTP response
(`error` cases carry the 4xx status the handler sends). The token middleware
is out of scope (the spec treats authentication as an opaque capability), so
handlers take the authenticated `userId` directly. `new Date()` is modelled
by an explicit `now : Nat` argument; the fresh UUIDs are explicit arguments.
JSON payloads are a deep inductive type and `JSON.stringify` is embedded
structurally.
-/

namespace Zenith

mutual
inductive Json where
  | null
  | bool (b : Bool)
  | num (n : Int)
  | str (s : String)
  | arr (xs : JsonArr)
  | obj (kvs : JsonObj)

inductive JsonArr where
  | nil
  | cons (hd : Json) (tl : JsonArr)

inductive JsonObj where
  | nil
  | cons (k : String) (v : Json) (tl : JsonObj)
end

mutual
def Json.stringify : Json → String
  | .null => "null"
  | .bool true => "true"
  | .bool false => "false"
  | .num n => toString n
  | .str s => "\"" ++ s ++ "\""
  | .arr xs => "[" ++ JsonArr.stringifyItems xs ++ "]"
  | .obj kvs => "\x7b" ++ JsonObj.stringifyFields kvs ++ "\x7d"

def JsonArr.stringifyItems : JsonArr → String
  | .nil => ""
  | .cons x .nil => Json.stringify x
  | .cons x (.cons y tl) => Json.stringify x ++ "," ++ JsonArr.stringifyItems (.cons y tl)

def JsonObj.stringifyFields : JsonObj → String
  | .nil => ""
  | .cons k v .nil => "\"" ++ k ++ "\":" ++ Json.stringify v
  | .cons k v (.cons k2 v2 tl) =>
      "\"" ++ k ++ "\":" ++ Json.stringify v ++ "," ++ JsonObj.stringifyFields (.cons k2 v2 tl)
end

/-- Association list with JS-object semantics: `obj[k]`. -/
def omapLookup {α : Type} : List (String × α) → String → Option α
  | [], _ => none
  | (k', v) :: rest, k => if k' = k then some v else omapLookup rest k

/-- `obj[k] = v`: replace in place if the key exists, append otherwise. -/
def omapInsert {α : Type} : List (String × α) → String → α → List (String × α)
  | [], k, v => [(k, v)]
  | (k', v') :: rest, k, v =>
      if k' = k then (k, v) :: rest else (k', v') :: omapInsert rest k v

/-- `delete obj[k]`. -/
def omapErase {α : Type} : List (String × α) → String → List (String × α)
  | [], _ => []
  | (k', v') :: rest, k => if k' = k then rest else (k', v') :: omapErase rest k

/-- A record in `users`. -/
structure User where
  userId : String
  email : String
  password : String
  userName : String
  createdAt : Nat

/-- A record in `buckets`. -/
structure Bucket where
  bucketId : String
  bucketName : String
  owner : String
  durability : String
  region : String
  createdAt : Nat
  itemCount : Nat

/-- A document record stored in `databases[bucketId][path]`. -/
structure Doc where
  data : Json
  createdAt : Nat
  updatedAt : Nat
  size : Nat

/-- One entry of the `items` array in the list-items response. -/
structure ItemMeta where
  path : String
  size : Nat
  createdAt : Nat
  updatedAt : Nat

/-- The three global maps of the server. -/
structure ServerState where
  users : List (String × User)
  buckets : List (String × Bucket)
  databases : List (String × List (String × Doc))

def emptyState : ServerState := ⟨[], [], []⟩

/-- HTTP error statuses the handlers send. -/
inductive ApiError where
  | badRequest
  | unauthorized
  | forbidden
  | notFound
  | conflict
deriving DecidableEq

/-- The document record built by the PUT and batch-write handlers:
payload, both timestamps stamped with `new Date()`, size from
`JSON.stringify(data).length`. -/
def mkDoc (now : Nat) (data : Json) : Doc :=
  ⟨data, now, now, (Json.stringify data).length⟩

/-- The two assignment statements every mutating data handler ends with:
store the new per-bucket map and set
`buckets[bucketId].itemCount = Object.keys(databases[bucketId]).length`. -/
def commitDb (s : ServerState) (bucketId : String) (b : Bucket)
    (db' : List (String × Doc)) : ServerState :=
  { s with
      databases := omapInsert s.databases bucketId db',
      buckets := omapInsert s.buckets bucketId { b with itemCount := db'.length } }

/-- POST /api/auth/register. Empty string models a missing/falsy field. -/
def register (s : ServerState) (now : Nat) (uid email password pname : String) :
    ServerState × Except ApiError String :=
  if email = "" ∨ password = "" then (s, .error .badRequest)
  else
    match omapLookup s.users email with
    | some _ => (s, .error .conflict)
    | none =>
        let u : User := ⟨uid, email, password, if pname = "" then "User" else pname, now⟩
        ({ s with users := omapInsert s.users email u }, .ok uid)

/-- POST /api/auth/login. Returns the userId of the token it signs. -/
def login (s : ServerState) (email password : String) :
    ServerState × Except ApiError String :=
  if email = "" ∨ password = "" then (s, .error .badRequest)
  else
    match omapLookup s.users email with
    | none => (s, .error .unauthorized)
    | some u =>
        if u.password ≠ password then (s, .error .unauthorized)
        else (s, .ok u.userId)

/-- POST /api/buckets. -/
def createBucket (s : ServerState) (now : Nat) (bid userId bname durability region : String) :
    ServerState × Except ApiError String :=
  if bname = "" then (s, .error .badRequest)
  else
    let b : Bucket :=
      ⟨bid, bname, userId,
        (if durability = "" then "standard" else durability),
        (if region = "" then "us-east-1" else region), now, 0⟩
    ({ s with buckets := omapInsert s.buckets bid b,
              databases := omapInsert s.databases bid [] }, .ok bid)

/-- GET /api/buckets: `Object.values(buckets).filter(b => b.owner === req.userId)`. -/
def listBuckets (s : ServerState) (userId : String) :
    ServerState × Except ApiError (List Bucket) :=
  (s, .ok ((s.buckets.map Prod.snd).filter (fun b => b.owner = userId)))

/-- PUT /api/buckets/:bucketId/data/*. -/
def writeData (s : ServerState) (now : Nat) (userId bucketId path : String) (data : Json) :
    ServerState × Except ApiError (String × String) :=
  match omapLookup s.buckets bucketId with
  | none => (s, .error .notFound)
  | some b =>
      if b.owner ≠ userId then (s, .error .forbidden)
      else
        let db := (omapLookup s.databases bucketId).getD []
        (commitDb s bucketId b (omapInsert db path (mkDoc now data)), .ok (bucketId, path))

/-- GET /api/buckets/:bucketId/data/*. -/
def readData (s : ServerState) (userId bucketId path : String) :
    ServerState × Except ApiError Doc :=
  match omapLookup s.buckets bucketId with
  | none => (s, .error .notFound)
  | some b =>
      if b.owner ≠ userId then (s, .error .forbidden)
      else
        match omapLookup s.databases bucketId with
        | none => (s, .error .notFound)
        | some db =>
            match omapLookup db path with
            | none => (s, .error .notFound)
            | some item => (s, .ok item)

/-- DELETE /api/buckets/:bucketId/data/*. -/
def deleteData (s : ServerState) (userId bucketId path : String) :
    ServerState × Except ApiError Unit :=
  match omapLookup s.buckets bucketId with
  | none => (s, .error .notFound)
  | some b =>
      if b.owner ≠ userId then (s, .error .forbidden)
      else
        match omapLookup s.databases bucketId with
        | none => (s, .error .notFound)
        | some db =>
            match omapLookup db path with
            | none => (s, .error .notFound)
            | some _ => (commitDb s bucketId b (omapErase db path), .ok ())

/-- GET /api/buckets/:bucketId/items. Response carries `items.length` and `items`. -/
def listItems (s : ServerState) (userId bucketId : String) :
    ServerState × Except ApiError (Nat × List ItemMeta) :=
  match omapLookup s.buckets bucketId with
  | none => (s, .error .notFound)
  | some b =>
      if b.owner ≠ userId then (s, .error .forbidden)
      else
        let items :=
          ((omapLookup s.databases bucketId).getD []).map
            fun kv => ItemMeta.mk kv.1 kv.2.size kv.2.createdAt kv.2.updatedAt
        (s, .ok (items.length, items))

/-- The slice bound `topK || 10`: 0 and an absent field are falsy in JS, so
both fall back to 10. -/
def effectiveTopK : Option Nat → Nat
  | none => 10
  | some 0 => 10
  | some k => k

/-- POST /api/buckets/:bucketId/vector-search. `topK = none` models an absent
field; `topK || 10` maps 0 and absent to 10. The `Math.random()` score is
external nondeterminism and is not part of the state model; a result entry is
its path and payload. -/
def vectorSearch (s : ServerState) (userId bucketId : String) (topK : Option Nat) :
    ServerState × Except ApiError (List (String × Json)) :=
  match omapLookup s.buckets bucketId with
  | none => (s, .error .notFound)
  | some b =>
      if b.owner ≠ userId then (s, .error .forbidden)
      else
        let results :=
          (((omapLookup s.databases bucketId).getD []).take (effectiveTopK topK)).map
            fun kv => (kv.1, kv.2.data)
        (s, .ok results)

/-- POST /api/buckets/:bucketId/batch-write. `items = none` models a non-array
body. Each item is written with `mkDoc`, in input order; the per-item result
is `(path, "success")`. -/
def batchWrite (s : ServerState) (now : Nat) (userId bucketId : String)
    (items : Option (List (String × Json))) :
    ServerState × Except ApiError (List (String × String)) :=
  match omapLookup s.buckets bucketId with
  | none => (s, .error .notFound)
  | some b =>
      if b.owner ≠ userId then (s, .error .forbidden)
      else
        match items with
        | none => (s, .error .badRequest)
        | some its =>
            let db := (omapLookup s.databases bucketId).getD []
            let db' := its.foldl (fun d pd => omapInsert d pd.1 (mkDoc now pd.2)) db
            (commitDb s bucketId b db', .ok (its.map fun pd => (pd.1, "success")))

/-- One authenticated API request (after the token middleware resolved the
caller's userId). -/
inductive Request where
  | registerReq (now : Nat) (uid email password pname : String)
  | loginReq (email password : String)
  | createBucketReq (now : Nat) (bid userId bname durability region : String)
  | listBucketsReq (userId : String)
  | writeReq (now : Nat) (userId bucketId path : String) (data : Json)
  | readReq (userId bucketId path : String)
  | deleteReq (userId bucketId path : String)
  | listItemsReq (userId bucketId : String)
  | vectorSearchReq (userId bucketId : String) (topK : Option Nat)
  | batchWriteReq (now : Nat) (userId bucketId : String)
      (items : Option (List (String × Json)))

def errOf {α : Type} : Except ApiError α → Option ApiError
  | .error e => some e
  | .ok _ => none

/-- Dispatch a request to its handler; keeps the post-state and the error
component of the response. -/
def handle (s : ServerState) : Request → ServerState × Option ApiError
  | .registerReq now uid email password pname =>
      let r := register s now uid email password pname; (r.1, errOf r.2)
  | .loginReq email password =>
      let r := login s email password; (r.1, errOf r.2)
  | .createBucketReq now bid userId bname durability region =>
      let r := createBucket s now bid userId bname durability region; (r.1, errOf r.2)
  | .listBucketsReq userId =>
      let r := listBuckets s userId; (r.1, errOf r.2)
  | .writeReq now userId bucketId path data =>
      let r := writeData s now userId bucketId path data; (r.1, errOf r.2)
  | .readReq userId bucketId path =>
      let r := readData s userId bucketId path; (r.1, errOf r.2)
  | .deleteReq userId bucketId path =>
      let r := deleteData s userId bucketId path; (r.1, errOf r.2)
  | .listItemsReq userId bucketId =>
      let r := listItems s userId bucketId; (r.1, errOf r.2)
  | .vectorSearchReq userId bucketId topK =>
      let r := vectorSearch s userId bucketId topK; (r.1, errOf r.2)
  | .batchWriteReq now userId bucketId items =>
      let r := batchWrite s now userId bucketId items; (r.1, errOf r.2)

/-- A document-store mutation on one fixed bucket, as in the itemCount
invariant: write, delete, or batch write. -/
inductive Op where
  | write (now : Nat) (userId path : String) (data : Json)
  | del (userId path : String)
  | batch (now : Nat) (userId : String) (items : Option (List (String × Json)))

/-- Apply one mutation to bucket `bid`; a handler error leaves the maps as the
server does: untouched. -/
def applyOp (bid : String) (s : ServerState) : Op → ServerState
  | .write now userId path data => (writeData s now userId bid path data).1
  | .del userId path => (deleteData s userId bid path).1
  | .batch now userId items => (batchWrite s now userId bid items).1

/-- Run a sequence of mutations against bucket `bid`. -/
def runOps (bid : String) (s : ServerState) (ops : List Op) : ServerState :=
  ops.foldl (applyOp bid) s

/-- The invariant of claim C2: a bucket record's `itemCount` equals the number
of live documents in its path map. -/
def CountOk (bid : String) (s : ServerState) : Prop :=
  ∀ b, omapLookup s.buckets bid = some b →
    b.itemCount = ((omapLookup s.databases bid).getD []).length

/-! Concrete states used by witnesses: one registered user, one bucket, one
document, then an overwrite of that document. -/

def stU : ServerState := (register emptyState 0 "uidA" "a@x" "pw" "A").1

def st0 : ServerState := (createBucket emptyState 0 "b1" "u1" "buck" "" "").1

def st1 : ServerState := (writeData st0 1 "u1" "b1" "p" (Json.str "x")).1

def st2 : ServerState := (writeData st1 2 "u1" "b1" "p" (Json.str "y")).1

section OmapLemmas

variable {α : Type}

theorem omapLookup_insert_self (m : List (String × α)) (k : String) (v : α) :
    omapLookup (omapInsert m k v) k = some v := by
  induction m with
  | nil => simp [omapInsert, omapLookup]
  | cons kv rest ih =>
      obtain ⟨k1, v1⟩ := kv
      by_cases h : k1 = k
      · simp [omapInsert, h, omapLookup]
      · simp [omapInsert, h, omapLookup, ih]

theorem omapLookup_insert_ne (m : List (String × α)) (k k' : String) (v : α)
    (h : k' ≠ k) : omapLookup (omapInsert m k v) k' = omapLookup m k' := by
  have h' : ¬ k = k' := fun hh => h hh.symm
  induction m with
  | nil => simp [omapInsert, omapLookup, h']
  | cons kv rest ih =>
      obtain ⟨k1, v1⟩ := kv
      by_cases hh : k1 = k
      · subst hh
        simp [omapInsert, omapLookup, h']
      · simp only [omapInsert, if_neg hh]
        by_cases hh' : k1 = k'
        · simp [omapLookup, hh']
        · simp [omapLookup, hh', ih]

theorem omapInsert_insert (m : List (String × α)) (k : String) (v1 v2 : α) :
    omapInsert (omapInsert m k v1) k v2 = omapInsert m k v2 := by
  induction m with
  | nil => simp [omapInsert]
  | cons kv rest ih =>
      obtain ⟨k1, w⟩ := kv
      by_cases h : k1 = k
      · simp [omapInsert, h]
      · simp [omapInsert, h, ih]

theorem omapInsert_self_of_lookup (m : List (String × α)) (k : String) (v : α)
    (h : omapLookup m k = some v) : omapInsert m k v = m := by
  induction m with
  | nil => simp [omapLookup] at h
  | cons kv rest ih =>
      obtain ⟨k1, v1⟩ := kv
      by_cases hh : k1 = k
      · subst hh
        simp [omapLookup] at h
        subst h
        simp [omapInsert]
      · simp [omapLookup, hh] at h
        simp [omapInsert, hh, ih h]

theorem omapLookup_eq_none_of_not_mem (m : List (String × α)) (k : String)
    (h : k ∉ m.map Prod.fst) : omapLookup m k = none := by
  induction m with
  | nil => rfl
  | cons kv rest ih =>
      obtain ⟨k1, v1⟩ := kv
      rw [List.map_cons] at h
      have h1 : ¬ k1 = k := fun hh => h (by rw [hh]; exact List.mem_cons_self _ _)
      have h2 : k ∉ rest.map Prod.fst := fun hk => h (List.mem_cons_of_mem _ hk)
      simp [omapLookup, h1, ih h2]

theorem omapLookup_erase_self (m : List (String × α)) (k : String)
    (h : (m.map Prod.fst).Nodup) : omapLookup (omapErase m k) k = none := by
  induction m with
  | nil => rfl
  | cons kv rest ih =>
      obtain ⟨k1, v1⟩ := kv
      rw [List.map_cons, List.nodup_cons] at h
      by_cases hh : k1 = k
      · simp only [omapErase, if_pos hh]
        exact omapLookup_eq_none_of_not_mem rest k
          (fun hk => h.1 (by rw [hh]; exact hk))
      · simp [omapErase, hh, omapLookup, ih h.2]

end OmapLemmas

theorem countOk_commitDb (s : ServerState) (bid : String) (b : Bucket)
    (db' : List (String × Doc)) : CountOk bid (commitDb s bid b db') := by
  intro b' hb'
  simp [commitDb, omapLookup_insert_self] at hb' ⊢
  rw [← hb']

theorem countOk_applyOp (bid : String) (s : ServerState) (op : Op)
    (h : CountOk bid s) : CountOk bid (applyOp bid s op) := by
  cases op with
  | write now userId path data =>
      simp only [applyOp, writeData]
      split
      · exact h
      · split
        · exact h
        · exact countOk_commitDb _ _ _ _
  | del userId path =>
      simp only [applyOp, deleteData]
      split
      · exact h
      · split
        · exact h
        · split
          · exact h
          · split
            · exact h
            · exact countOk_commitDb _ _ _ _
  | batch now userId items =>
      simp only [applyOp, batchWrite]
      split
      · exact h
      · split
        · exact h
        · split
          · exact h
          · exact countOk_commitDb _ _ _ _

theorem countOk_runOps (bid : String) (s : ServerState) (ops : List Op)
    (h : CountOk bid s) : CountOk bid (runOps bid s ops) := by
  induction ops generalizing s with
  | nil => exact h
  | cons op rest ih => exact ih _ (countOk_applyOp bid s op h)

theorem countOk_of_createBucket (s0 s1 : ServerState) (now : Nat)
    (bid uid bname dur reg out : String)
    (hc : createBucket s0 now bid uid bname dur reg = (s1, .ok out)) :
    CountOk bid s1 := by
  unfold createBucket at hc
  by_cases hn : bname = ""
  · rw [if_pos hn] at hc
    exact absurd (congrArg Prod.snd hc) (by simp)
  · rw [if_neg hn] at hc
    injection hc with h1 h2
    subst h1
    intro b hb
    simp [omapLookup_insert_self] at hb ⊢
    rw [← hb]

/-- Claim C2: starting from `createBucket` (which initializes `itemCount` to
0), after any finite sequence of write, delete, and batch-write operations on
the bucket, the bucket record's `itemCount` equals the number of entries the
list-items handler returns for that bucket. -/
theorem C2_itemCount_matches_list
    (s0 s1 : ServerState) (now : Nat) (bid uid bname dur reg out : String)
    (hc : createBucket s0 now bid uid bname dur reg = (s1, .ok out))
    (ops : List Op) (bmeta : Bucket)
    (hb : omapLookup (runOps bid s1 ops).buckets bid = some bmeta) :
    ∃ l, (listItems (runOps bid s1 ops) bmeta.owner bid).2 = .ok (l.length, l) ∧
      bmeta.itemCount = l.length := by
  have hco := countOk_runOps bid s1 ops
    (countOk_of_createBucket s0 s1 now bid uid bname dur reg out hc)
  have hcnt := hco bmeta hb
  refine ⟨((omapLookup (runOps bid s1 ops).databases bid).getD []).map
      (fun kv => ItemMeta.mk kv.1 kv.2.size kv.2.createdAt kv.2.updatedAt), ?_, ?_⟩
  · simp only [listItems, hb]
    rw [if_neg (show ¬ bmeta.owner ≠ bmeta.owner from fun hcon => hcon rfl),
      List.length_map]
  · rw [hcnt, List.length_map]

def opsW : List Op :=
  [.write 1 "u1" "p" (.str "x"), .write 2 "u1" "q" .null, .del "u1" "p"]

/-- Witness for C2 at a concrete run: create a bucket, write two paths, delete
one; the recorded itemCount is 1 and list returns one entry. -/
theorem C2_itemCount_matches_list_witness :
    ∃ l, (listItems (runOps "b1" st0 opsW) "u1" "b1").2 = .ok (l.length, l) ∧
      (1 : Nat) = l.length :=
  C2_itemCount_matches_list emptyState st0 0 "b1" "u1" "buck" "" "" "b1" rfl opsW
    ⟨"b1", "buck", "u1", "standard", "us-east-1", 0, 1⟩ rfl

/-- Claim C1 evaluated at its failing input: write "x" at time 1 and then "y"
at time 2 to the same path of the same bucket. The stored document has
payload "y" and updatedAt 2 as the claim says, but its createdAt is also 2 —
the time of the second write — because the PUT handler stamps
`createdAt: new Date()` unconditionally instead of check-then-set, so an
overwrite does not preserve the original createdAt of 1. -/
theorem C1_overwrite_resets_createdAt :
    (readData st2 "u1" "b1" "p").2 = .ok ⟨Json.str "y", 2, 2, 3⟩ ∧ (2 : Nat) ≠ 1 :=
  ⟨rfl, by decide⟩

/-- Claim C3: for an existing bucket owned by principal `p`, every call of
write, read, delete, or list by a different principal `q` answers Forbidden,
whatever the path: the ownership check runs before any path lookup. -/
theorem C3_cross_tenant_forbidden
    (s : ServerState) (now : Nat) (bucketId p q path : String) (data : Json)
    (b : Bucket) (hb : omapLookup s.buckets bucketId = some b)
    (howner : b.owner = p) (hq : q ≠ p) :
    (writeData s now q bucketId path data).2 = .error .forbidden ∧
    (readData s q bucketId path).2 = .error .forbidden ∧
    (deleteData s q bucketId path).2 = .error .forbidden ∧
    (listItems s q bucketId).2 = .error .forbidden := by
  have hno : b.owner ≠ q := by rw [howner]; exact fun hcon => hq hcon.symm
  refine ⟨?_, ?_, ?_, ?_⟩ <;>
    simp [writeData, readData, deleteData, listItems, hb, hno]

/-- Witness for C3: the owner of bucket b1 is u1; principal u2 is rejected
with Forbidden on all four operations, at a path that does not exist. -/
theorem C3_cross_tenant_forbidden_witness :
    (writeData st0 5 "u2" "b1" "p" .null).2 = .error .forbidden ∧
    (readData st0 "u2" "b1" "p").2 = .error .forbidden ∧
    (deleteData st0 "u2" "b1" "p").2 = .error .forbidden ∧
    (listItems st0 "u2" "b1").2 = .error .forbidden :=
  C3_cross_tenant_forbidden st0 5 "b1" "u1" "u2" "p" .null
    ⟨"b1", "buck", "u1", "standard", "us-east-1", 0, 0⟩ rfl rfl (by decide)

/-- Claim C4: after a successful write of payload `data`, reading the same
path of the same bucket succeeds and returns exactly `data`, with size equal
to the length of the serialized payload. -/
theorem C4_write_read_roundtrip
    (s s' : ServerState) (now : Nat) (userId bucketId path : String)
    (data : Json) (out : String × String)
    (hw : writeData s now userId bucketId path data = (s', .ok out)) :
    (readData s' userId bucketId path).2 =
      .ok ⟨data, now, now, (Json.stringify data).length⟩ := by
  unfold writeData at hw
  cases hb : omapLookup s.buckets bucketId with
  | none =>
      simp only [hb] at hw
      exact absurd (congrArg Prod.snd hw) (by simp)
  | some b =>
      simp only [hb] at hw
      by_cases ho : b.owner ≠ userId
      · rw [if_pos ho] at hw
        exact absurd (congrArg Prod.snd hw) (by simp)
      · rw [if_neg ho] at hw
        have hob : b.owner = userId := not_not.mp ho
        have hs : s' = commitDb s bucketId b
            (omapInsert ((omapLookup s.databases bucketId).getD []) path
              (mkDoc now data)) :=
          (congrArg Prod.fst hw).symm
        subst hs
        simp [readData, commitDb, omapLookup_insert_self, hob, mkDoc]

/-- Witness for C4: writing "x" at path p then reading p returns "x" with
size 3, the length of the serialized string. -/
theorem C4_write_read_roundtrip_witness :
    (readData st1 "u1" "b1" "p").2 = .ok ⟨Json.str "x", 1, 1, 3⟩ :=
  C4_write_read_roundtrip st0 st1 1 "u1" "b1" "p" (Json.str "x") ("b1", "p") rfl

/-- Claim C5: for an existing bucket and its owner, delete answers NotFound
exactly when no document exists at the path; and after a successful delete, a
second delete of the same path with no intervening write answers NotFound. -/
theorem C5_delete_notFound_iff_absent
    (s : ServerState) (userId bucketId path : String) (b : Bucket)
    (hb : omapLookup s.buckets bucketId = some b) (ho : b.owner = userId)
    (hnd : (((omapLookup s.databases bucketId).getD []).map Prod.fst).Nodup) :
    ((deleteData s userId bucketId path).2 = .error .notFound ↔
      omapLookup ((omapLookup s.databases bucketId).getD []) path = none) ∧
    (∀ s', deleteData s userId bucketId path = (s', .ok ()) →
      (deleteData s' userId bucketId path).2 = .error .notFound) := by
  have hno : ¬ b.owner ≠ userId := not_not.mpr ho
  constructor
  · cases hd : omapLookup s.databases bucketId with
    | none => simp [deleteData, hb, hno, hd, omapLookup]
    | some db =>
        cases hp : omapLookup db path with
        | none => simp [deleteData, hb, hno, hd, hp]
        | some doc => simp [deleteData, hb, hno, hd, hp]
  · intro s' hdel
    unfold deleteData at hdel
    simp only [hb] at hdel
    rw [if_neg hno] at hdel
    cases hd : omapLookup s.databases bucketId with
    | none =>
        simp only [hd] at hdel
        exact absurd (congrArg Prod.snd hdel) (by simp)
    | some db =>
        simp only [hd] at hdel
        cases hp : omapLookup db path with
        | none =>
            simp only [hp] at hdel
            exact absurd (congrArg Prod.snd hdel) (by simp)
        | some doc =>
            simp only [hp] at hdel
            have hs : s' = commitDb s bucketId b (omapErase db path) :=
              (congrArg Prod.fst hdel).symm
            subst hs
            have hnd' : (db.map Prod.fst).Nodup := by
              rw [hd] at hnd
              exact hnd
            simp [deleteData, commitDb, omapLookup_insert_self, ho,
              omapLookup_erase_self db path hnd']

/-- Witness for C5: bucket b1 holds one document at path p; the first delete
does not answer NotFound, and deleting again after the successful delete
answers NotFound. -/
theorem C5_delete_notFound_iff_absent_witness :
    ((deleteData st1 "u1" "b1" "p").2 = .error .notFound ↔
      omapLookup ((omapLookup st1.databases "b1").getD []) "p" = none) ∧
    (deleteData (deleteData st1 "u1" "b1" "p").1 "u1" "b1" "p").2 =
      .error .notFound := by
  have h := C5_delete_notFound_iff_absent st1 "u1" "b1" "p"
    ⟨"b1", "buck", "u1", "standard", "us-east-1", 0, 1⟩ rfl rfl (by decide)
  exact ⟨h.1, h.2 (deleteData st1 "u1" "b1" "p").1 rfl⟩

theorem writeData_ok_eq (s : ServerState) (now : Nat)
    (userId bucketId path : String) (data : Json) (b : Bucket)
    (hb : omapLookup s.buckets bucketId = some b) (ho : b.owner = userId) :
    writeData s now userId bucketId path data =
      (commitDb s bucketId b
        (omapInsert ((omapLookup s.databases bucketId).getD []) path
          (mkDoc now data)),
        .ok (bucketId, path)) := by
  simp [writeData, hb, ho]

theorem batchWrite_some_eq (s : ServerState) (now : Nat)
    (userId bucketId : String) (its : List (String × Json)) (b : Bucket)
    (hb : omapLookup s.buckets bucketId = some b) (ho : b.owner = userId) :
    batchWrite s now userId bucketId (some its) =
      (commitDb s bucketId b
        (its.foldl (fun d pd => omapInsert d pd.1 (mkDoc now pd.2))
          ((omapLookup s.databases bucketId).getD [])),
        .ok (its.map fun pd => (pd.1, "success"))) := by
  simp [batchWrite, hb, ho]

theorem commitDb_buckets_lookup (s : ServerState) (bid : String) (b : Bucket)
    (db' : List (String × Doc)) :
    omapLookup (commitDb s bid b db').buckets bid =
      some { b with itemCount := db'.length } := by
  simp [commitDb, omapLookup_insert_self]

theorem commitDb_databases_lookup (s : ServerState) (bid : String) (b : Bucket)
    (db' : List (String × Doc)) :
    omapLookup (commitDb s bid b db').databases bid = some db' := by
  simp [commitDb, omapLookup_insert_self]

theorem commitDb_twice (s : ServerState) (bid : String) (b : Bucket)
    (db1 db2 : List (String × Doc)) :
    commitDb (commitDb s bid b db1) bid { b with itemCount := db1.length } db2 =
      commitDb s bid b db2 := by
  simp [commitDb, omapInsert_insert]

theorem commitDb_self (s : ServerState) (bid : String) (b : Bucket)
    (db0 : List (String × Doc))
    (hb : omapLookup s.buckets bid = some b)
    (hdb : omapLookup s.databases bid = some db0)
    (hcnt : b.itemCount = db0.length) :
    commitDb s bid b db0 = s := by
  have h1 : { b with itemCount := db0.length } = b := by rw [← hcnt]
  rw [commitDb, h1, omapInsert_self_of_lookup s.buckets bid b hb,
    omapInsert_self_of_lookup s.databases bid db0 hdb]

theorem batchWrite_state_seq (now : Nat) (userId bucketId : String)
    (its : List (String × Json)) :
    ∀ (s : ServerState) (b : Bucket) (db0 : List (String × Doc)),
      omapLookup s.buckets bucketId = some b → b.owner = userId →
      omapLookup s.databases bucketId = some db0 → b.itemCount = db0.length →
      (batchWrite s now userId bucketId (some its)).1 =
        its.foldl (fun st pd => (writeData st now userId bucketId pd.1 pd.2).1) s := by
  induction its with
  | nil =>
      intro s b db0 hb ho hdb hcnt
      rw [batchWrite_some_eq s now userId bucketId [] b hb ho]
      simp only [List.foldl_nil, hdb, Option.getD_some]
      exact commitDb_self s bucketId b db0 hb hdb hcnt
  | cons pd rest ih =>
      intro s b db0 hb ho hdb hcnt
      have hw := writeData_ok_eq s now userId bucketId pd.1 pd.2 b hb ho
      have hdb1 : (omapLookup s.databases bucketId).getD [] = db0 := by
        rw [hdb]; rfl
      rw [batchWrite_some_eq s now userId bucketId (pd :: rest) b hb ho]
      rw [List.foldl_cons, List.foldl_cons, hw]
      rw [hdb1]
      have hstep := ih (commitDb s bucketId b (omapInsert db0 pd.1 (mkDoc now pd.2)))
        { b with itemCount := (omapInsert db0 pd.1 (mkDoc now pd.2)).length }
        (omapInsert db0 pd.1 (mkDoc now pd.2))
        (commitDb_buckets_lookup s bucketId b _) ho
        (commitDb_databases_lookup s bucketId b _) rfl
      rw [← hstep]
      rw [batchWrite_some_eq _ now userId bucketId rest _
        (commitDb_buckets_lookup s bucketId b _) ho]
      rw [commitDb_databases_lookup s bucketId b _]
      rw [commitDb_twice]
      rfl

/-- Claim C6: for an existing bucket and its owner, batch-write applies each
item's write in input order — the final state is the one produced by applying
the single-item write handler to each item left to right, with no rollback —
and returns one status entry per input item, each marked success, in input
order. -/
theorem C6_batchWrite_ordered
    (s : ServerState) (now : Nat) (userId bucketId : String)
    (its : List (String × Json)) (b : Bucket) (db0 : List (String × Doc))
    (hb : omapLookup s.buckets bucketId = some b) (ho : b.owner = userId)
    (hdb : omapLookup s.databases bucketId = some db0)
    (hcnt : b.itemCount = db0.length) :
    (batchWrite s now userId bucketId (some its)).2 =
      .ok (its.map fun pd => (pd.1, "success")) ∧
    (batchWrite s now userId bucketId (some its)).1 =
      its.foldl (fun st pd => (writeData st now userId bucketId pd.1 pd.2).1) s := by
  constructor
  · rw [batchWrite_some_eq s now userId bucketId its b hb ho]
  · exact batchWrite_state_seq now userId bucketId its s b db0 hb ho hdb hcnt

def its6W : List (String × Json) := [("a", .num 1), ("b", .num 2)]

/-- Witness for C6: a two-item batch on a fresh bucket reports success for
both items in order and equals the two single writes run in sequence. -/
theorem C6_batchWrite_ordered_witness :
    (batchWrite st0 3 "u1" "b1" (some its6W)).2 =
      .ok [("a", "success"), ("b", "success")] ∧
    (batchWrite st0 3 "u1" "b1" (some its6W)).1 =
      its6W.foldl (fun st pd => (writeData st 3 "u1" "b1" pd.1 pd.2).1) st0 :=
  C6_batchWrite_ordered st0 3 "u1" "b1" its6W
    ⟨"b1", "buck", "u1", "standard", "us-east-1", 0, 0⟩ [] rfl rfl rfl rfl

/-- Claim C7: registering a loginId that is already present fails with
Conflict and creates no second principal (the user map is left unchanged);
login fails with Unauthorized when the loginId is absent or the stored secret
does not match. Empty strings model missing fields, which the handlers
reject earlier as BadRequest, so the nonemptiness side conditions delimit
well-formed requests. -/
theorem C7_register_conflict_login_unauthorized
    (s s1 : ServerState) (now now2 : Nat)
    (uid uid2 email password pname password2 pname2 : String)
    (lemail1 lemail2 lpw1 lpw2 out : String) :
    (register s now uid email password pname = (s1, .ok out) → password2 ≠ "" →
      (register s1 now2 uid2 email password2 pname2).2 = .error .conflict ∧
      (register s1 now2 uid2 email password2 pname2).1 = s1) ∧
    (lemail1 ≠ "" → lpw1 ≠ "" → omapLookup s.users lemail1 = none →
      (login s lemail1 lpw1).2 = .error .unauthorized) ∧
    (∀ u : User, lemail2 ≠ "" → lpw2 ≠ "" → omapLookup s.users lemail2 = some u →
      u.password ≠ lpw2 → (login s lemail2 lpw2).2 = .error .unauthorized) := by
  refine ⟨?_, ?_, ?_⟩
  · intro hreg hpw2
    unfold register at hreg
    by_cases hbad : email = "" ∨ password = ""
    · rw [if_pos hbad] at hreg
      exact absurd (congrArg Prod.snd hreg) (by simp)
    · rw [if_neg hbad] at hreg
      have hemail : ¬ email = "" := fun hh => hbad (Or.inl hh)
      cases hl : omapLookup s.users email with
      | some u =>
          simp only [hl] at hreg
          exact absurd (congrArg Prod.snd hreg) (by simp)
      | none =>
          simp only [hl] at hreg
          have hs1 : s1 = { s with users := omapInsert s.users email (User.mk uid email password (if pname = "" then "User" else pname) now) } :=
            (congrArg Prod.fst hreg).symm
          subst hs1
          constructor <;>
            simp [register, hemail, hpw2, omapLookup_insert_self]
  · intro h1 h2 hl
    simp [login, h1, h2, hl]
  · intro u h1 h2 hl hpw
    simp [login, h1, h2, hl, hpw]

def stUB : ServerState := (register stU 1 "uidB" "b@x" "pw2" "B").1

/-- Witness for C7: after registering b@x, registering b@x again fails with
Conflict and leaves the state unchanged; logging in with an unknown loginId
or a wrong secret fails with Unauthorized. -/
theorem C7_register_conflict_login_unauthorized_witness :
    ((register stUB 2 "uidC" "b@x" "pw3" "C").2 = .error .conflict ∧
      (register stUB 2 "uidC" "b@x" "pw3" "C").1 = stUB) ∧
    (login stU "zz" "w").2 = .error .unauthorized ∧
    (login stU "a@x" "bad").2 = .error .unauthorized := by
  have h := C7_register_conflict_login_unauthorized stU stUB 1 2 "uidB" "uidC"
    "b@x" "pw2" "B" "pw3" "C" "zz" "a@x" "w" "bad" "uidB"
  exact ⟨h.1 rfl (by decide), h.2.1 (by decide) (by decide) rfl,
    h.2.2 ⟨"uidA", "a@x", "pw", "A", 0⟩ (by decide) (by decide) rfl (by decide)⟩

/-- Claim C8: list-buckets never fails and does not mutate state; it returns
exactly the buckets owned by the caller, as a subsequence of the registry's
values in insertion (creation) order, and the empty sequence when the caller
owns none. -/
theorem C8_listBuckets_owned (s : ServerState) (userId : String) :
    (listBuckets s userId).1 = s ∧
    ∃ l, (listBuckets s userId).2 = .ok l ∧
      l.Sublist (s.buckets.map Prod.snd) ∧
      (∀ b : Bucket, b ∈ l ↔ b ∈ s.buckets.map Prod.snd ∧ b.owner = userId) ∧
      ((∀ b ∈ s.buckets.map Prod.snd, b.owner ≠ userId) → l = []) := by
  refine ⟨rfl, _, rfl, List.filter_sublist _, ?_, ?_⟩
  · intro b
    simp [List.mem_filter]
  · intro h
    simp only [List.filter_eq_nil_iff]
    intro b hmem
    simpa using h b hmem

/-- Witness for C8: a principal owning no buckets gets the empty list, not an
error, and the state is unchanged. -/
theorem C8_listBuckets_owned_witness :
    (listBuckets st0 "zz").1 = st0 ∧ (listBuckets st0 "zz").2 = .ok [] := by
  obtain ⟨h0, l, h1, h2, h3, h4⟩ := C8_listBuckets_owned st0 "zz"
  exact ⟨h0, by rw [h1, h4 (by decide)]⟩

/-- Claim C9, as stated, evaluated at its failing input: bucket b1 holds one
document and the caller requests topK = 0; `topK || 10` treats 0 as absent
and falls back to 10, so the search returns one item although the requested
topK was 0 — the result count exceeds the requested topK. -/
theorem C9_topK_zero_counterexample :
    (vectorSearch st1 "u1" "b1" (some 0)).2 = .ok [("p", Json.str "x")] ∧
    ¬ ((1 : Nat) ≤ 0) := ⟨rfl, by decide⟩

/-- Claim C9 (amended): vector-search on an owned bucket returns a sequence
of at most `effectiveTopK topK` items drawn from the bucket's live documents;
in particular the count is bounded by the requested topK whenever topK ≥ 1
(when topK is 0 or absent the limit is the default 10 instead). The
`Math.random()` relevance score is external nondeterminism outside the state
model. -/
theorem C9_vectorSearch_bounded
    (s : ServerState) (userId bucketId : String) (topK : Option Nat)
    (b : Bucket) (hb : omapLookup s.buckets bucketId = some b)
    (ho : b.owner = userId) :
    ∃ l, (vectorSearch s userId bucketId topK).2 = .ok l ∧
      l.length ≤ effectiveTopK topK ∧
      (∀ k, topK = some k → 1 ≤ k → l.length ≤ k) ∧
      ∀ r ∈ l, ∃ kv, kv ∈ (omapLookup s.databases bucketId).getD [] ∧
        r = (kv.1, kv.2.data) := by
  refine ⟨(((omapLookup s.databases bucketId).getD []).take
      (effectiveTopK topK)).map (fun kv => (kv.1, kv.2.data)), ?_, ?_, ?_, ?_⟩
  · simp [vectorSearch, hb, ho]
  · rw [List.length_map, List.length_take]
    exact min_le_left _ _
  · intro k hk h1k
    subst hk
    have heff : effectiveTopK (some k) = k := by
      cases k with
      | zero => exact absurd h1k (by decide)
      | succ n => rfl
    rw [List.length_map, List.length_take, heff]
    exact min_le_left _ _
  · intro r hr
    obtain ⟨kv, hkv, hfr⟩ := List.mem_map.mp hr
    exact ⟨kv, List.take_subset _ _ hkv, hfr.symm⟩

/-- Witness for C9 (amended): with topK = 5 on a bucket holding one document
the search returns at most 5 items. -/
theorem C9_vectorSearch_bounded_witness :
    ∃ l, (vectorSearch st1 "u1" "b1" (some 5)).2 = .ok l ∧ l.length ≤ 5 := by
  obtain ⟨l, h1, h2, h3, h4⟩ := C9_vectorSearch_bounded st1 "u1" "b1" (some 5)
    ⟨"b1", "buck", "u1", "standard", "us-east-1", 0, 1⟩ rfl rfl
  exact ⟨l, h1, h3 5 rfl (by decide)⟩

theorem errOf_eq_some {α : Type} (x : Except ApiError α) (e : ApiError)
    (h : errOf x = some e) : x = .error e := by
  cases x with
  | error e' => simpa [errOf] using h
  | ok a => simp [errOf] at h

theorem login_state (s : ServerState) (email password : String) :
    (login s email password).1 = s := by
  unfold login
  split
  · rfl
  · split
    · rfl
    · split <;> rfl

theorem readData_state (s : ServerState) (userId bucketId path : String) :
    (readData s userId bucketId path).1 = s := by
  unfold readData
  split
  · rfl
  · split
    · rfl
    · split
      · rfl
      · split <;> rfl

theorem listItems_state (s : ServerState) (userId bucketId : String) :
    (listItems s userId bucketId).1 = s := by
  unfold listItems
  split
  · rfl
  · split <;> rfl

theorem vectorSearch_state (s : ServerState) (userId bucketId : String)
    (topK : Option Nat) : (vectorSearch s userId bucketId topK).1 = s := by
  unfold vectorSearch
  split
  · rfl
  · split <;> rfl

theorem register_error_frame (s : ServerState) (now : Nat)
    (uid email password pname : String) (e : ApiError)
    (h : (register s now uid email password pname).2 = .error e) :
    (register s now uid email password pname).1 = s := by
  revert h
  unfold register
  split
  · intro _; rfl
  · split
    · intro _; rfl
    · intro h; simp at h

theorem createBucket_error_frame (s : ServerState) (now : Nat)
    (bid userId bname durability region : String) (e : ApiError)
    (h : (createBucket s now bid userId bname durability region).2 = .error e) :
    (createBucket s now bid userId bname durability region).1 = s := by
  revert h
  unfold createBucket
  split
  · intro _; rfl
  · intro h; simp at h

theorem writeData_error_frame (s : ServerState) (now : Nat)
    (userId bucketId path : String) (data : Json) (e : ApiError)
    (h : (writeData s now userId bucketId path data).2 = .error e) :
    (writeData s now userId bucketId path data).1 = s := by
  revert h
  unfold writeData
  split
  · intro _; rfl
  · split
    · intro _; rfl
    · intro h; simp at h

theorem deleteData_error_frame (s : ServerState) (userId bucketId path : String)
    (e : ApiError) (h : (deleteData s userId bucketId path).2 = .error e) :
    (deleteData s userId bucketId path).1 = s := by
  revert h
  unfold deleteData
  split
  · intro _; rfl
  · split
    · intro _; rfl
    · split
      · intro _; rfl
      · split
        · intro _; rfl
        · intro h; simp at h

theorem batchWrite_error_frame (s : ServerState) (now : Nat)
    (userId bucketId : String) (items : Option (List (String × Json)))
    (e : ApiError) (h : (batchWrite s now userId bucketId items).2 = .error e) :
    (batchWrite s now userId bucketId items).1 = s := by
  revert h
  unfold batchWrite
  split
  · intro _; rfl
  · split
    · intro _; rfl
    · split
      · intro _; rfl
      · intro h; simp at h

/-- Claim C10: whenever a request is answered with an error — BadRequest,
Unauthorized, Forbidden, NotFound or Conflict — the handler returns before
performing any mutation: the user directory, the bucket registry (with every
itemCount) and every bucket's path map are exactly as before the call. -/
theorem C10_error_leaves_state_unchanged (s : ServerState) (r : Request)
    (e : ApiError) (h : (handle s r).2 = some e) : (handle s r).1 = s := by
  cases r with
  | registerReq now uid email password pname =>
      exact register_error_frame s now uid email password pname e
        (errOf_eq_some _ e h)
  | loginReq email password => exact login_state s email password
  | createBucketReq now bid userId bname durability region =>
      exact createBucket_error_frame s now bid userId bname durability region e
        (errOf_eq_some _ e h)
  | listBucketsReq userId => rfl
  | writeReq now userId bucketId path data =>
      exact writeData_error_frame s now userId bucketId path data e
        (errOf_eq_some _ e h)
  | readReq userId bucketId path => exact readData_state s userId bucketId path
  | deleteReq userId bucketId path =>
      exact deleteData_error_frame s userId bucketId path e
        (errOf_eq_some _ e h)
  | listItemsReq userId bucketId => exact listItems_state s userId bucketId
  | vectorSearchReq userId bucketId topK =>
      exact vectorSearch_state s userId bucketId topK
  | batchWriteReq now userId bucketId items =>
      exact batchWrite_error_frame s now userId bucketId items e
        (errOf_eq_some _ e h)

/-- Witness for C10: a duplicate registration is answered with Conflict and
the state is exactly the pre-state. -/
theorem C10_error_leaves_state_unchanged_witness :
    (handle stU (.registerReq 1 "uidB" "a@x" "pw" "B")).2 = some .conflict ∧
    (handle stU (.registerReq 1 "uidB" "a@x" "pw" "B")).1 = stU :=
  ⟨rfl, C10_error_leaves_state_unchanged stU (.registerReq 1 "uidB" "a@x" "pw" "B")
    .conflict rfl⟩

end Zenith
